import Mathlib

/-!
Verification development for the dice-forge expression engine
(`src/lib/dice-utils.ts`, the revision with parenthesis support).

Modelling conventions:
* JavaScript numbers are modelled as exact rationals `ℚ`; the value `NaN`
  (and `undefined`, which behaves identically to `NaN` in every arithmetic
  case of `applyOp`, including the `b === 0` test) is modelled as `none` in
  `Option ℚ`.  `parseFloat` / `parseInt` of the digit strings admitted by the
  tokenizer are exact, so no floating-point rounding enters there.
* A thrown exception ("Mismatched parentheses") is the outer `none` of the
  evaluator's `Option` result; the `try`/`catch` blocks in the callers map it
  to their documented defaults.
* `Math.random()` is modelled as an injected stream `rand : ℕ → ℚ` of draw
  outcomes, consumed left to right (the source's global generator).
* A JavaScript `Map<number, number>` is an insertion-ordered association
  list with unique keys; `Map.set` updates an existing key in place and
  appends a fresh one.
* The regular-expression lexer `formula.match(/(\d+d\d+|\d+\.\d+|\d+|[+\-*\x2f()])/g)`
  scans left to right, emitting the longest token the alternation allows at
  each position and silently skipping characters that start no token.  The
  recursion is driven by a fuel argument equal to the input length, which is
  ample because every step consumes at least one character.
-/

-- Batteries marks the arithmetic of `Rat` irreducible, which blocks the
-- elaborator-side evaluation `decide` needs for closed rational computations;
-- restore the ordinary reducibility of those operations (their definitions
-- are untouched).
set_option allowUnsafeReducibility true
attribute [semireducible] Rat.add Rat.mul Rat.sub Rat.inv Rat.ofScientific

namespace DiceForge

/-- Binary operator of a formula (`OperatorTerm.value` in the source). -/
inductive Op where
  | add
  | sub
  | mul
  | div
deriving DecidableEq, Repr

/-- Parsed term (`ParsedTerm` in the source): dice, number, operator or a
parenthesis marker. -/
inductive ParsedTerm where
  | dice (count sides : ℕ)
  | num (value : ℚ)
  | op (o : Op)
  | lparen
  | rparen
deriving DecidableEq, Repr

/-- Characters that lex as single-character tokens (`[+\-*\x2f()]`). -/
def isOpChar (c : Char) : Bool :=
  c = '+' || c = '-' || c = '*' || c = '/' || c = '(' || c = ')'

/-- One left-to-right pass of the token regular expression
`(\d+d\d+|\d+\.\d+|\d+|[+\-*\x2f()])` with global flag: at each position the
first alternative that matches wins (digits are taken greedily), and a
character that starts no alternative is skipped.  `fuel` bounds the
recursion; `fuel = input length` always suffices. -/
def lexFuel : ℕ → List Char → List (List Char)
  | 0, _ => []
  | _ + 1, [] => []
  | fuel + 1, c :: rest =>
    if c.isDigit then
      let d1 := (c :: rest).takeWhile Char.isDigit
      let r1 := (c :: rest).dropWhile Char.isDigit
      match r1 with
      | 'd' :: r2 =>
        let d2 := r2.takeWhile Char.isDigit
        if d2.isEmpty then
          -- no digit after the 'd': the match is just `\d+`; the 'd' itself
          -- starts no token and is skipped on the next scan step
          d1 :: lexFuel fuel r1
        else (d1 ++ 'd' :: d2) :: lexFuel fuel (r2.dropWhile Char.isDigit)
      | '.' :: r2 =>
        let d2 := r2.takeWhile Char.isDigit
        if d2.isEmpty then d1 :: lexFuel fuel r1
        else (d1 ++ '.' :: d2) :: lexFuel fuel (r2.dropWhile Char.isDigit)
      | _ => d1 :: lexFuel fuel r1
    else if isOpChar c then [c] :: lexFuel fuel rest
    else lexFuel fuel rest

/-- Token is exactly the one-character string `+` or `-`. -/
def isSignTok (t : List Char) : Bool := t = ['+'] || t = ['-']

/-- The previously emitted token allows a following `+`/`-` to act as a sign
(start of input, after `(`, or after another operator);
mirrors `prevToken === null || ['(','+','-','*','\x2f'].includes(prevToken)`. -/
def prevAllowsSign : Option (List Char) → Bool
  | none => true
  | some p => p = ['('] || p = ['+'] || p = ['-'] || p = ['*'] || p = ['/']

/-- First character is a digit (`nextToken.match(/^\d/)`; the second
disjunct `/^\d+d\d+/` of the source is subsumed by it). -/
def headIsDigit : List Char → Bool
  | [] => false
  | c :: _ => c.isDigit

/-- The forward-looking unary-sign pass of `tokenizeFormula`: a bare `+`/`-`
in sign position is glued onto a following digit-initial token (which the
next iteration then emits unchanged, since the glued token is no longer a
bare sign); otherwise the token is emitted and becomes the new previous
token. -/
def signFold : Option (List Char) → List (List Char) → List (List Char)
  | _, [] => []
  | _, [t] => [t]
  | prev, t :: next :: rest2 =>
    if isSignTok t && prevAllowsSign prev && headIsDigit next then
      (t ++ next) :: signFold (some (t ++ next)) rest2
    else t :: signFold (some t) (next :: rest2)

/-- Decimal value of a digit string (`parseInt` on the strings the lexer
produces). -/
def parseNatDigits (ds : List Char) : ℕ :=
  ds.foldl (fun n c => 10 * n + (c.toNat - '0'.toNat)) 0

/-- Match against `/^\d+d\d+$/` and return the two digit groups
(`token.split('d')`). -/
def splitDiceTok (t : List Char) : Option (List Char × List Char) :=
  let a := t.takeWhile Char.isDigit
  let r := t.dropWhile Char.isDigit
  match r with
  | 'd' :: b => if !a.isEmpty && !b.isEmpty && b.all Char.isDigit then some (a, b) else none
  | _ => none

/-- Ten to the n-th power, as an iterated product (kernel-reducible). -/
def pow10 (n : ℕ) : ℕ := (List.range n).foldl (fun a _ => a * 10) 1

/-- Match against `/^-?\d+(\.\d+)?$/` and return `parseFloat` of the token
(exact, as a rational). -/
def matchNumberTok (t : List Char) : Option ℚ :=
  let negAndBody : Bool × List Char :=
    match t with
    | '-' :: r => (true, r)
    | _ => (false, t)
  let ip := negAndBody.2.takeWhile Char.isDigit
  let r := negAndBody.2.dropWhile Char.isDigit
  if ip.isEmpty then none
  else
    let base : ℚ := (parseNatDigits ip : ℚ)
    let value? : Option ℚ :=
      match r with
      | [] => some base
      | '.' :: fr =>
        if !fr.isEmpty && fr.all Char.isDigit then
          some (base + (parseNatDigits fr : ℚ) / ((pow10 fr.length : ℕ) : ℚ))
        else none
      | _ => none
    value?.map (fun v => if negAndBody.1 then -v else v)

/-- The classification loop of `tokenizeFormula`: track the running
open-parenthesis count (fail as soon as it goes negative, and at the end if
it is nonzero) and classify each raw token in the source's order — dice
pattern, signed number, operator, parenthesis, `-`-prefixed dice (which
expands to `-1 * dice`) — failing on anything else.  The `countStr = ""`
default of the source is kept verbatim even though the dice pattern
`\d+d\d+` makes it unreachable. -/
def classifyTokens : List (List Char) → ℤ → List ParsedTerm → Option (List ParsedTerm)
  | [], opens, acc => if opens ≠ 0 then none else some acc.reverse
  | t :: rest, opens, acc =>
    let opens2 : ℤ := if t = ['('] then opens + 1 else if t = [')'] then opens - 1 else opens
    if opens2 < 0 then none
    else
      match splitDiceTok t with
      | some (countStr, sidesStr) =>
        let count := if countStr.isEmpty then 1 else parseNatDigits countStr
        let sides := parseNatDigits sidesStr
        if sides = 0 || count = 0 then none
        else classifyTokens rest opens2 (.dice count sides :: acc)
      | none =>
        match matchNumberTok t with
        | some v => classifyTokens rest opens2 (.num v :: acc)
        | none =>
          if t = ['+'] then classifyTokens rest opens2 (.op .add :: acc)
          else if t = ['-'] then classifyTokens rest opens2 (.op .sub :: acc)
          else if t = ['*'] then classifyTokens rest opens2 (.op .mul :: acc)
          else if t = ['/'] then classifyTokens rest opens2 (.op .div :: acc)
          else if t = ['('] then classifyTokens rest opens2 (.lparen :: acc)
          else if t = [')'] then classifyTokens rest opens2 (.rparen :: acc)
          else
            match t with
            | '-' :: u =>
              match splitDiceTok u with
              | some (countStr, sidesStr) =>
                let count := if countStr.isEmpty then 1 else parseNatDigits countStr
                let sides := parseNatDigits sidesStr
                if sides = 0 || count = 0 then none
                else classifyTokens rest opens2
                  (.dice count sides :: .op .mul :: .num (-1) :: acc)
              | none => none
            | _ => none

/-- `tokenizeFormula`: strip whitespace, lower-case, lex, fold unary signs,
classify.  `none` is the source's `null` (parse error); the empty input
tokenizes to the empty sequence. -/
def tokenizeFormula (formula : String) : Option (List ParsedTerm) :=
  let cleanFormula := (formula.data.filter (fun c => !c.isWhitespace)).map Char.toLower
  if cleanFormula.isEmpty then some []
  else classifyTokens (signFold none (lexFuel cleanFormula.length cleanFormula)) 0 []

/-- `parseDiceFormula` forwards to the tokenizer (its `try`/`catch` is dead
because the tokenizer never throws) and passes the `null` signal through. -/
def parseDiceFormula (formula : String) : Option (List ParsedTerm) :=
  tokenizeFormula formula

/-- Operator precedence table `{'+': 1, '-': 1, '*': 2, '/': 2}`. -/
def precedence : Op → ℕ
  | .add => 1
  | .sub => 1
  | .mul => 2
  | .div => 2

/-- Entry of the evaluator's operator stack: either the `'('` barrier or a
binary operator. -/
inductive StackOp where
  | lp
  | binop (o : Op)
deriving DecidableEq, Repr

/-- The four scalar resolution modes of `evaluate`. -/
inductive EvalMode where
  | min
  | max
  | avg
  | roll
deriving DecidableEq, Repr

section ShuntingYard

variable {α : Type} (app : Op → Option α → Option α → α)

/-- `values.pop()`: popping an empty JavaScript array yields `undefined`,
modelled as `none`. -/
def popValue : List α → Option α × List α
  | [] => (none, [])
  | v :: vs => (some v, vs)

/-- Pop `b`, pop `a`, push `applyOp(op, b, a)` (the source's argument
order: the first pop is the right operand). -/
def popApply (o : Op) (values : List α) : List α :=
  let pb := popValue values
  let pa := popValue pb.2
  app o pb.1 pa.1 :: pa.2

/-- Close-parenthesis handling: apply operators until the `'('` barrier,
`none` when the stack runs out first (`throw new Error("Mismatched
parentheses")`), and pop the barrier. -/
def popUntilLparen (values : List α) : List StackOp → Option (List α × List StackOp)
  | [] => none
  | .lp :: ops => some (values, ops)
  | .binop o :: ops => popUntilLparen (popApply app o values) ops

/-- On reading operator `o`: apply stacked operators of precedence at least
`precedence o` until the stack is empty or a `'('` barrier (or a
lower-precedence operator) is on top. -/
def popGePrecedence (o : Op) (values : List α) : List StackOp → List α × List StackOp
  | .binop o2 :: ops =>
    if precedence o ≤ precedence o2 then popGePrecedence o (popApply app o2 values) ops
    else (values, .binop o2 :: ops)
  | ops => (values, ops)

/-- End-of-input drain: apply all remaining operators; a leftover `'('`
barrier throws (`none`). -/
def drainOps (values : List α) : List StackOp → Option (List α)
  | [] => some values
  | .lp :: _ => none
  | .binop o :: ops => drainOps (popApply app o values) ops

/-- The token loop of `evaluate`, with the value stack (most recent first),
the operator stack, and a counter `k` threading the randomness stream
through `resolve`.  Outer `none` models a thrown exception. -/
def shuntLoop (resolve : ℕ → ParsedTerm → α × ℕ) :
    List ParsedTerm → List α → List StackOp → ℕ → Option (List α)
  | [], values, ops, _ => drainOps app values ops
  | .dice c s :: rest, values, ops, k =>
    let r := resolve k (.dice c s)
    shuntLoop resolve rest (r.1 :: values) ops r.2
  | .num v :: rest, values, ops, k =>
    let r := resolve k (.num v)
    shuntLoop resolve rest (r.1 :: values) ops r.2
  | .lparen :: rest, values, ops, k => shuntLoop resolve rest values (.lp :: ops) k
  | .rparen :: rest, values, ops, k =>
    match popUntilLparen app values ops with
    | none => none
    | some p => shuntLoop resolve rest p.1 p.2 k
  | .op o :: rest, values, ops, k =>
    let p := popGePrecedence app o values ops
    shuntLoop resolve rest p.1 (.binop o :: p.2) k

/-- `evaluate`: empty input returns the mode's default; otherwise run the
loop and return the single stacked value — or, for a malformed sequence
leaving several (or zero) values, the last computed one
(`values[values.length - 1]`, the head of our stack) or the default. -/
def evaluateGeneric (resolve : ℕ → ParsedTerm → α × ℕ) (dflt : α) (k : ℕ)
    (terms : List ParsedTerm) : Option α :=
  if terms.isEmpty then some dflt
  else (shuntLoop app resolve terms [] [] k).map (fun values => values.headD dflt)

end ShuntingYard

/-- `applyOp` in `'value'` mode, on JavaScript numbers (`Option ℚ`, `none` =
`NaN`): the `b === 0` guard turns division by zero into `NaN`, and `NaN`
operands propagate (`a` is the left operand, `b` the right, as in
`applyOp(op, b, a)`). -/
def applyOpValue (o : Op) (b a : Option ℚ) : Option ℚ :=
  match o with
  | .add =>
    match a, b with
    | some x, some y => some (x + y)
    | _, _ => none
  | .sub =>
    match a, b with
    | some x, some y => some (x - y)
    | _, _ => none
  | .mul =>
    match a, b with
    | some x, some y => some (x * y)
    | _, _ => none
  | .div =>
    if b = some 0 then none
    else
      match a, b with
      | some x, some y => some (x / y)
      | _, _ => none

/-- Stack-level wrapper of `applyOpValue`: an operand popped from an empty
stack is `undefined`, which behaves exactly like `NaN` in every case of
`applyOp` (including the `b === 0` test), so both collapse to `none`. -/
def appValue (o : Op) (b a : Option (Option ℚ)) : Option ℚ :=
  applyOpValue o b.join a.join

/-- One simulated die: `Math.floor(Math.random() * sides) + 1`, with the
`k`-th output of the injected random stream standing for `Math.random()`. -/
def rollDie (rand : ℕ → ℚ) (k : ℕ) (sides : ℕ) : ℤ :=
  Rat.floor (rand k * (sides : ℚ)) + 1

/-- `resolveTerm` of `evaluate` in the scalar modes: a number term is its
value in every mode; a dice term resolves per mode (`count * 1`,
`count * sides`, `count * (sides + 1) / 2`, or the sum of `count` random
draws, advancing the stream counter).  The final `return 0` of the source
(unreachable for dice/number terms) covers the remaining constructors. -/
def resolveTermValue (rand : ℕ → ℚ) (mode : EvalMode) (k : ℕ) :
    ParsedTerm → Option ℚ × ℕ
  | .num v => (some v, k)
  | .dice c s =>
    match mode with
    | .min => (some ((c : ℚ) * 1), k)
    | .max => (some ((c : ℚ) * (s : ℚ)), k)
    | .avg => (some ((c : ℚ) * ((s : ℚ) + 1) / 2), k)
    | .roll =>
      (some (((List.range c).map (fun i => ((rollDie rand (k + i) s : ℤ) : ℚ))).foldl
        (fun sum x => sum + x) 0), k + c)
  | _ => (some 0, k)

/-- `evaluate(tokens, mode)` for the scalar modes (result `none` = thrown
exception; inner `none` = `NaN`). -/
def evaluateValue (rand : ℕ → ℚ) (mode : EvalMode) (k : ℕ)
    (terms : List ParsedTerm) : Option (Option ℚ) :=
  evaluateGeneric appValue (resolveTermValue rand mode) (some 0) k terms

/-- A `Map<number, number>` of outcome value to multiplicity: an
insertion-ordered association list with unique keys. -/
abbrev Distribution := List (ℚ × ℕ)

/-- `map.get(k) || 0`. -/
def mapGetD (d : Distribution) (key : ℚ) : ℕ :=
  ((d.find? (fun e => e.1 = key)).map (fun e => e.2)).getD 0

/-- `map.set(k, v)`: update an existing key in place, else append. -/
def mapSet (d : Distribution) (key : ℚ) (v : ℕ) : Distribution :=
  if d.any (fun e => e.1 = key) then d.map (fun e => if e.1 = key then (key, v) else e)
  else d ++ [(key, v)]

/-- `getTermDistribution`: a number term is the single-point map
`{value: 1}`; a dice term starts from `{0: 1}` and, once per die, folds in a
uniform face `f ∈ [1, sides]` over every accumulated `(sum, count)` pair.
A non-calculation term would skip the loop entirely and stay `{0: 1}`
(unreachable from `evaluate`). -/
def getTermDistribution : ParsedTerm → Distribution
  | .num v => [(v, 1)]
  | .dice count sides =>
    (List.range count).foldl
      (fun currentDist _ =>
        (List.range sides).foldl
          (fun nextDist f =>
            currentDist.foldl
              (fun nd e =>
                let newSum := e.1 + ((f : ℚ) + 1)
                mapSet nd newSum (mapGetD nd newSum + e.2))
              nextDist)
          [])
      [((0 : ℚ), 1)]
  | _ => [((0 : ℚ), 1)]

/-- `Math.round`: round half toward positive infinity. -/
def jsRound (q : ℚ) : ℤ := Rat.floor (q + 1 / 2)

/-- `Math.round(newVal * 1e9) / 1e9`: coalesce keys to nine decimal
digits. -/
def roundTo9 (q : ℚ) : ℚ := (jsRound (q * 1000000000) : ℚ) / 1000000000

/-- The per-pair outcome of `combineDistributions`: `NaN` (dropped by the
`!isNaN(newVal)` test) exactly when dividing by a zero outcome. -/
def combineOutcome (o : Op) (v1 v2 : ℚ) : Option ℚ :=
  match o with
  | .add => some (v1 + v2)
  | .sub => some (v1 - v2)
  | .mul => some (v1 * v2)
  | .div => if v2 = 0 then none else some (v1 / v2)

/-- `combineDistributions(dist1, dist2, op)`: Cartesian product of the two
supports, skipping `NaN` outcomes, rounding each key to nine decimals and
accumulating `count1 * count2`; an `undefined` operand (popped from an
empty stack) makes the whole result the empty map. -/
def combineDistributions (dist1 dist2 : Option Distribution) (o : Op) : Distribution :=
  match dist1, dist2 with
  | some d1, some d2 =>
    d1.foldl
      (fun newDist e1 =>
        d2.foldl
          (fun nd e2 =>
            match combineOutcome o e1.1 e2.1 with
            | none => nd
            | some v =>
              let rv := roundTo9 v
              mapSet nd rv (mapGetD nd rv + e1.2 * e2.2))
          newDist)
      []
  | _, _ => []

/-- `applyOp` in `'dist'` mode: `applyOp(op, b, a)` calls
`combineDistributions(a, b, op)`. -/
def appDist (o : Op) (b a : Option Distribution) : Distribution :=
  combineDistributions a b o

/-- The value stack left by `evaluate(terms, 'dist')` (exposed for the
fallback analysis); `none` models a thrown exception. -/
def distStack (terms : List ParsedTerm) : Option (List Distribution) :=
  shuntLoop appDist (fun k t => (getTermDistribution t, k)) terms [] [] 0

/-- `evaluate(tokens, 'dist')`: empty input gives `{0: 1}`; otherwise the
single stacked distribution, or the last computed one (or `{0: 1}`) for a
malformed sequence. -/
def evaluateDist (terms : List ParsedTerm) : Option Distribution :=
  if terms.isEmpty then some [((0 : ℚ), 1)]
  else (distStack terms).map (fun values => values.headD [((0 : ℚ), 1)])

/-- Result record of `calculateStats` (all fields are JavaScript numbers,
`none` = `NaN`). -/
structure Stats where
  min : Option ℚ
  max : Option ℚ
  avg : Option ℚ
  avgFloored : Option ℚ
deriving DecidableEq, Repr

/-- `calculateStats`: zeros for an empty sequence or on a caught evaluation
exception; otherwise the three scalar modes plus `Math.floor(avg)`.  (The
scalar modes never consult the random stream, so it is fixed.) -/
def calculateStats (terms : List ParsedTerm) : Stats :=
  if terms.isEmpty then ⟨some 0, some 0, some 0, some 0⟩
  else
    match evaluateValue (fun _ => 0) .min 0 terms, evaluateValue (fun _ => 0) .max 0 terms,
        evaluateValue (fun _ => 0) .avg 0 terms with
    | some mn, some mx, some av => ⟨mn, mx, av, av.map (fun q => ((Rat.floor q : ℤ) : ℚ))⟩
    | _, _, _ => ⟨some 0, some 0, some 0, some 0⟩

/-- `totalDice`: the sum of the counts of all dice terms
(`terms.reduce(...)`). -/
def totalDice (terms : List ParsedTerm) : ℕ :=
  terms.foldl
    (fun sum t =>
      match t with
      | .dice c _ => sum + c
      | _ => sum)
    0

/-- `calculateProbabilityDistribution`: empty input or more than 8 total
dice gives `[]`; a caught exception gives `[]`; otherwise normalize the
final distribution by its total multiplicity, keep the entries of positive
probability and sort ascending by outcome value.  (The source's
`if (!finalDistribution)` test never fires: a `Map` is always truthy.) -/
def calculateProbabilityDistribution (terms : List ParsedTerm) : List (ℚ × ℚ) :=
  if terms.isEmpty then []
  else if 8 < totalDice terms then []
  else
    match evaluateDist terms with
    | none => []
    | some finalDistribution =>
      let totalCombinations : ℕ := (finalDistribution.map (fun e => e.2)).sum
      if totalCombinations = 0 then []
      else
        List.insertionSort (fun a b => a.1 ≤ b.1)
          ((finalDistribution.map
            (fun e => (e.1, (e.2 : ℚ) / (totalCombinations : ℚ)))).filter
            (fun item => decide (0 < item.2)))

/-- One die's display record (`RollDetail`). -/
structure RollDetail where
  value : ℤ
  sides : ℕ
  sign : ℤ
deriving DecidableEq, Repr

/-- Result record of `simulateRoll` (`total` is `none` only for `NaN`). -/
structure RollResult where
  total : Option ℚ
  details : List RollDetail
  modifier : ℚ
deriving DecidableEq, Repr

/-- `simulateRoll`: replace every dice term by a number term holding the sum
of `count` fresh draws (recording each die), evaluate the rolled sequence in
`'roll'` mode continuing the same random stream, and report as `modifier`
the sum of the number terms of the ORIGINAL sequence; a caught evaluation
exception degrades to the all-zero result. -/
def simulateRoll (rand : ℕ → ℚ) (terms : List ParsedTerm) : RollResult :=
  if terms.isEmpty then ⟨some 0, [], 0⟩
  else
    let st := terms.foldl
      (fun (st : List ParsedTerm × List RollDetail × ℕ) t =>
        match t with
        | .dice c s =>
          let rolls := (List.range c).map (fun i => rollDie rand (st.2.2 + i) s)
          (st.1 ++ [ParsedTerm.num ((rolls.map (fun z => (z : ℚ))).foldl
              (fun sum x => sum + x) 0)],
           st.2.1 ++ rolls.map (fun z => ⟨z, s, 1⟩),
           st.2.2 + c)
        | _ => (st.1 ++ [t], st.2.1, st.2.2))
      ([], [], 0)
    match evaluateValue rand .roll st.2.2 st.1 with
    | some total =>
      ⟨total, st.2.1,
       (terms.filterMap
          (fun t =>
            match t with
            | .num v => some v
            | _ => none)).foldl (fun sum v => sum + v) 0⟩
    | none => ⟨some 0, [], 0⟩

/-! ### General lemmas -/

/-- Summing the mapped quotients by a fixed denominator is the quotient of
the mapped sum. -/
theorem sum_map_div {β : Type} (l : List β) (g : β → ℚ) (T : ℚ) :
    (l.map (fun e => g e / T)).sum = (l.map g).sum / T := by
  induction l with
  | nil => simp
  | cons x xs ih => simp [ih, add_div]

/-- Dropping list entries of value zero does not change the sum of values. -/
theorem sum_filter_pos (l : List (ℚ × ℚ)) (h : ∀ p ∈ l, 0 ≤ p.2) :
    ((l.filter (fun item => decide (0 < item.2))).map (fun p => p.2)).sum =
      (l.map (fun p => p.2)).sum := by
  induction l with
  | nil => simp
  | cons x xs ih =>
    have hx := h x (List.mem_cons_self x xs)
    have hxs := fun p hp => h p (List.mem_cons_of_mem x hp)
    by_cases h0 : 0 < x.2
    · simp [List.filter_cons, h0, ih hxs]
    · have : x.2 = 0 := le_antisymm (not_lt.mp h0) hx
      simp [List.filter_cons, h0, ih hxs, this]

instance : IsTotal (ℚ × ℚ) (fun a b => a.1 ≤ b.1) := ⟨fun a b => le_total a.1 b.1⟩

instance : IsTrans (ℚ × ℚ) (fun a b => a.1 ≤ b.1) := ⟨fun _ _ _ h1 h2 => le_trans h1 h2⟩

/-! ### Claim theorems -/

/-- C2: evaluation applies `*` and `/` before `+` and `-` and parentheses
override precedence: for `"2d6*2+1d10"` the minimum is `(2*2)+1 = 5` and the
maximum `(12*2)+10 = 34`; for `"(1d6+4)/2"` the minimum is `(1+4)/2 = 2.5`
and the maximum `(6+4)/2 = 5`. -/
theorem claim2_operator_precedence :
    tokenizeFormula "2d6*2+1d10" =
      some [.dice 2 6, .op .mul, .num 2, .op .add, .dice 1 10] ∧
    (calculateStats [.dice 2 6, .op .mul, .num 2, .op .add, .dice 1 10]).min = some 5 ∧
    (calculateStats [.dice 2 6, .op .mul, .num 2, .op .add, .dice 1 10]).max = some 34 ∧
    tokenizeFormula "(1d6+4)/2" =
      some [.lparen, .dice 1 6, .op .add, .num 4, .rparen, .op .div, .num 2] ∧
    (calculateStats [.lparen, .dice 1 6, .op .add, .num 4, .rparen, .op .div, .num 2]).min =
      some (5 / 2) ∧
    (calculateStats [.lparen, .dice 1 6, .op .add, .num 4, .rparen, .op .div, .num 2]).max =
      some 5 := by
  decide

/-- C4 counterexample: the claim says the tokenizer rejects `"d6 d6"`, but
the token regular expression skips the leading `d` and lexes `6d6`, so the
input is accepted as the single dice term `{count: 6, sides: 6}`. -/
theorem claim4_counterexample :
    tokenizeFormula "d6 d6" = some [.dice 6 6] ∧ tokenizeFormula "d6 d6" ≠ none := by
  decide

/-- C4 (amended): `"2d6++3"`, `"(1d6+4"` and `"1d0"` are rejected by
`tokenizeFormula` (and hence by `parseDiceFormula`), but `"d6 d6"` is
accepted and tokenizes to the single dice term `6d6` (the unmatched `d` is
silently skipped by the lexer). -/
theorem claim4_malformed_inputs :
    tokenizeFormula "2d6++3" = none ∧ parseDiceFormula "2d6++3" = none ∧
    tokenizeFormula "(1d6+4" = none ∧ parseDiceFormula "(1d6+4" = none ∧
    tokenizeFormula "1d0" = none ∧ parseDiceFormula "1d0" = none ∧
    tokenizeFormula "d6 d6" = some [.dice 6 6] ∧
    parseDiceFormula "d6 d6" = some [.dice 6 6] := by
  decide

/-- C5 counterexample: the claim says `"+3"` tokenizes to the single number
term `3`; in fact the glued token `+3` matches no token class (the number
pattern `-?\d+(\.\d+)?` admits no leading `+`), so tokenization returns the
parse-error signal. -/
theorem claim5_counterexample :
    tokenizeFormula "+3" = none ∧ tokenizeFormula "+3" ≠ some [.num 3] := by
  decide

/-- C5 (amended): a `+`/`-` at formula start, after `(` or after another
operator is treated as a sign and glued onto a following digit-initial
token; a `-`-prefixed number folds the sign into its value, and a
`-`-prefixed dice term expands to `number(-1), *, dice` — but a `+`-prefixed
operand makes tokenization fail, because the glued `+...` token matches no
token class. -/
theorem claim5_sign_folding :
    tokenizeFormula "-3" = some [.num (-3)] ∧
    tokenizeFormula "-1d6" = some [.num (-1), .op .mul, .dice 1 6] ∧
    tokenizeFormula "2*-3" = some [.num 2, .op .mul, .num (-3)] ∧
    tokenizeFormula "(-3)" = some [.lparen, .num (-3), .rparen] ∧
    tokenizeFormula "+3" = none ∧
    tokenizeFormula "+1d6" = none := by
  decide

/-- C6: the claim says a dice token with no digits before the `d` defaults
its count to 1; in fact the dice pattern `\d+d\d+` requires an explicit
count, so for `"d6"` the `d` is skipped, `6` lexes as a number, and the
result is the number term `6` — the `countStr === '' ? 1 : ...` default in
the source is unreachable. -/
theorem claim6_count_default_unreachable :
    tokenizeFormula "d6" = some [.num 6] ∧
    tokenizeFormula "d6" ≠ some [.dice 1 6] := by
  decide

/-- C3: in the scalar modes a dice term with count `c` and sides `s`
resolves to `c*1` (Min), `c*s` (Max) and exactly `c*(s+1)/2` (Average); a
number term resolves to its literal value in every mode; `calculateStats`
returns `avgFloored = floor(avg)` for every term sequence (`Rat.floor` is
the mathematical floor); and for `"3d8+4"` the stats are `min = 7`,
`max = 28`, `average = 17.5`, `averageFloored = 17`. -/
theorem claim3_mode_resolution :
    (∀ (rand : ℕ → ℚ) (k : ℕ) (c s : ℕ),
      resolveTermValue rand .min k (.dice c s) = (some ((c : ℚ) * 1), k) ∧
      resolveTermValue rand .max k (.dice c s) = (some ((c : ℚ) * (s : ℚ)), k) ∧
      resolveTermValue rand .avg k (.dice c s) = (some ((c : ℚ) * ((s : ℚ) + 1) / 2), k)) ∧
    (∀ (rand : ℕ → ℚ) (mode : EvalMode) (k : ℕ) (v : ℚ),
      resolveTermValue rand mode k (.num v) = (some v, k)) ∧
    (∀ q : ℚ, Rat.floor q = ⌊q⌋) ∧
    (∀ terms : List ParsedTerm,
      (calculateStats terms).avgFloored =
        (calculateStats terms).avg.map (fun q => ((Rat.floor q : ℤ) : ℚ))) ∧
    tokenizeFormula "3d8+4" = some [.dice 3 8, .op .add, .num 4] ∧
    calculateStats [.dice 3 8, .op .add, .num 4] =
      ⟨some 7, some 28, some (35 / 2), some 17⟩ := by
  refine ⟨fun rand k c s => ⟨rfl, rfl, rfl⟩, fun rand mode k v => ?_, fun q => ?_,
    fun terms => ?_, by decide, by decide⟩
  · cases mode <;> rfl
  · rw [Rat.floor_def', Rat.floor_def]
  · by_cases h : terms.isEmpty
    · simp only [calculateStats, h, if_pos]
      decide
    · rcases hmn : evaluateValue (fun _ => 0) EvalMode.min 0 terms with _ | mn
      · simp only [calculateStats, h, Bool.false_eq_true, if_false, hmn]
        decide
      · rcases hmx : evaluateValue (fun _ => 0) EvalMode.max 0 terms with _ | mx
        · simp only [calculateStats, h, Bool.false_eq_true, if_false, hmn, hmx]
          decide
        · rcases hav : evaluateValue (fun _ => 0) EvalMode.avg 0 terms with _ | av
          · simp only [calculateStats, h, Bool.false_eq_true, if_false, hmn, hmx, hav]
            decide
          · simp only [calculateStats, h, Bool.false_eq_true, if_false, hmn, hmx, hav]

/-- C7: a term sequence whose total dice count exceeds 8 gets the empty
probability distribution, while `calculateStats` still computes the normal
scalar results — for `"9d6"`: empty distribution but `min = 9`, `max = 54`,
`average = 31.5`. -/
theorem claim7_dice_cap (terms : List ParsedTerm) (h : 8 < totalDice terms) :
    calculateProbabilityDistribution terms = [] ∧
    tokenizeFormula "9d6" = some [.dice 9 6] ∧
    calculateStats [.dice 9 6] = ⟨some 9, some 54, some (63 / 2), some 31⟩ ∧
    calculateProbabilityDistribution [.dice 9 6] = [] := by
  refine ⟨?_, by decide, by decide, by decide⟩
  have hne : terms.isEmpty = false := by
    cases terms with
    | nil => exact absurd h (by decide)
    | cons a l => rfl
  simp [calculateProbabilityDistribution, hne, h]

/-- C7 witness at the sequence tokenized from `"9d6"`. -/
theorem claim7_dice_cap_witness :
    8 < totalDice [ParsedTerm.dice 9 6] ∧
    (calculateProbabilityDistribution [ParsedTerm.dice 9 6] = [] ∧
      tokenizeFormula "9d6" = some [.dice 9 6] ∧
      calculateStats [.dice 9 6] = ⟨some 9, some 54, some (63 / 2), some 31⟩ ∧
      calculateProbabilityDistribution [.dice 9 6] = []) :=
  ⟨by decide, claim7_dice_cap [ParsedTerm.dice 9 6] (by decide)⟩

/-- Folding the division combine step over `d2` skips exactly the entries
with outcome value `0`. -/
theorem combine_div_inner (e1 : ℚ × ℕ) (d2 nd : Distribution) :
    d2.foldl
      (fun nd2 e2 =>
        match combineOutcome .div e1.1 e2.1 with
        | none => nd2
        | some v =>
          let rv := roundTo9 v
          mapSet nd2 rv (mapGetD nd2 rv + e1.2 * e2.2))
      nd =
    (d2.filter (fun e => decide (e.1 ≠ 0))).foldl
      (fun nd2 e2 =>
        match combineOutcome .div e1.1 e2.1 with
        | none => nd2
        | some v =>
          let rv := roundTo9 v
          mapSet nd2 rv (mapGetD nd2 rv + e1.2 * e2.2))
      nd := by
  induction d2 generalizing nd with
  | nil => rfl
  | cons x xs ih =>
    by_cases hx : x.1 = 0
    · have hco : combineOutcome Op.div e1.1 x.1 = none := by
        simp [combineOutcome, hx]
      have hdec : decide (x.1 ≠ 0) = false := by simp [hx]
      simp only [List.foldl_cons, List.filter_cons, hco, hdec, Bool.false_eq_true,
        if_false]
      exact ih nd
    · have hdec : decide (x.1 ≠ 0) = true := by simp [hx]
      simp only [List.foldl_cons, List.filter_cons, hdec, if_true]
      exact ih _

/-- C8: division-by-zero policy.  In scalar evaluation, dividing by a zero
operand yields `NaN` (`none`), and a `NaN` operand propagates silently
through every operator; in distribution convolution, combining under `/`
ignores exactly the right-hand outcomes equal to `0`, so those pairings are
dropped; end to end, the accepted formula `"1d6/0+5"` evaluates (Min mode)
to `NaN` without an exception. -/
theorem claim8_division_by_zero :
    (∀ x : Option ℚ, applyOpValue .div (some 0) x = none) ∧
    (∀ (o : Op) (x : Option ℚ),
      applyOpValue o none x = none ∧ applyOpValue o x none = none) ∧
    (∀ d1 d2 : Distribution,
      combineDistributions (some d1) (some d2) .div =
        combineDistributions (some d1) (some (d2.filter (fun e => decide (e.1 ≠ 0)))) .div) ∧
    tokenizeFormula "1d6/0+5" =
      some [.dice 1 6, .op .div, .num 0, .op .add, .num 5] ∧
    evaluateValue (fun _ => 0) .min 0 [.dice 1 6, .op .div, .num 0, .op .add, .num 5] =
      some none := by
  refine ⟨fun x => rfl, fun o x => ⟨?_, ?_⟩, fun d1 d2 => ?_, by decide, by decide⟩
  · cases o <;> cases x <;> simp [applyOpValue]
  · cases o <;> cases x <;> simp [applyOpValue]
  · show List.foldl _ [] d1 = List.foldl _ [] d1
    exact List.foldl_ext _ _ _ (fun acc e1 _ => combine_div_inner e1 d2 acc)

/-- Taking the probabilities of a normalized distribution sums the raw
multiplicities divided by the fixed total. -/
theorem map_snd_normalized (fd : Distribution) (T : ℚ) :
    ((fd.map (fun e => (e.1, (e.2 : ℚ) / T))).map (fun p => p.2)).sum =
      (fd.map (fun e => (e.2 : ℚ))).sum / T := by
  induction fd with
  | nil => simp
  | cons x xs ih => simp only [List.map_cons, List.sum_cons, ih, add_div]

/-- Casting the multiplicity sum of a distribution to `ℚ` commutes with
summation. -/
theorem cast_mult_sum (fd : Distribution) :
    (fd.map (fun e => (e.2 : ℚ))).sum = (((fd.map (fun e => e.2)).sum : ℕ) : ℚ) := by
  induction fd with
  | nil => simp
  | cons x xs ih => simp [ih]

/-- Whatever the input, `calculateProbabilityDistribution` either returns
the empty sequence or a sequence whose probabilities sum to `1`, sorted
ascending by outcome value and holding only positive probabilities. -/
theorem calcProbDist_spec (terms : List ParsedTerm) :
    calculateProbabilityDistribution terms = [] ∨
      (((calculateProbabilityDistribution terms).map (fun p => p.2)).sum = 1 ∧
        List.Sorted (fun a b : ℚ × ℚ => a.1 ≤ b.1)
          (calculateProbabilityDistribution terms) ∧
        ∀ p ∈ calculateProbabilityDistribution terms, 0 < p.2) := by
  by_cases h1 : terms.isEmpty
  · exact Or.inl (by simp [calculateProbabilityDistribution, h1])
  · rw [Bool.not_eq_true] at h1
    by_cases h2 : 8 < totalDice terms
    · exact Or.inl (by simp [calculateProbabilityDistribution, h1, h2])
    · rcases hev : evaluateDist terms with _ | fd
      · exact Or.inl (by simp [calculateProbabilityDistribution, h1, h2, hev])
      · by_cases hT : (fd.map (fun e => e.2)).sum = 0
        · exact Or.inl (by simp [calculateProbabilityDistribution, h1, h2, hev, hT])
        · right
          have hres : calculateProbabilityDistribution terms =
              List.insertionSort (fun a b => a.1 ≤ b.1)
                ((fd.map (fun e =>
                    (e.1, (e.2 : ℚ) / (((fd.map (fun e => e.2)).sum : ℕ) : ℚ)))).filter
                  (fun item => decide (0 < item.2))) := by
            simp [calculateProbabilityDistribution, h1, h2, hev, hT]
          refine ⟨?_, ?_, ?_⟩
          · rw [hres]
            have hperm := (List.perm_insertionSort (fun a b : ℚ × ℚ => a.1 ≤ b.1)
              ((fd.map (fun e =>
                  (e.1, (e.2 : ℚ) / (((fd.map (fun e => e.2)).sum : ℕ) : ℚ)))).filter
                (fun item => decide (0 < item.2)))).map (fun p : ℚ × ℚ => p.2)
            rw [hperm.sum_eq]
            rw [sum_filter_pos _ (fun p hp => ?_), map_snd_normalized, cast_mult_sum,
              div_self (by exact_mod_cast hT)]
            obtain ⟨e, _, rfl⟩ := List.mem_map.mp hp
            exact div_nonneg (Nat.cast_nonneg e.2) (Nat.cast_nonneg _)
          · rw [hres]
            exact List.sorted_insertionSort _ _
          · rw [hres]
            intro p hp
            obtain ⟨_, hdec⟩ :=
              List.mem_filter.mp ((List.mem_insertionSort _).mp hp)
            exact of_decide_eq_true hdec

/-- C1 counterexample: `"1d6/0"` is accepted by the tokenizer and has one
die (at most 8), yet its probability distribution is the empty sequence —
every pairing is dropped by the division-by-zero rule — so the probabilities
sum to `0`, not `1`. -/
theorem claim1_counterexample :
    tokenizeFormula "1d6/0" = some [.dice 1 6, .op .div, .num 0] ∧
    totalDice [ParsedTerm.dice 1 6, .op .div, .num 0] ≤ 8 ∧
    calculateProbabilityDistribution [.dice 1 6, .op .div, .num 0] = [] ∧
    ((calculateProbabilityDistribution [.dice 1 6, .op .div, .num 0]).map
        (fun p => p.2)).sum = 0 ∧
    (0 : ℚ) ≠ 1 := by
  decide

/-- C1 (amended): for every accepted formula of at most 8 total dice, the
probability distribution is either the empty sequence (possible — e.g. when
division by zero drops every pairing) or a sequence whose probabilities sum
to `1`, sorted ascending by outcome value with only positive probabilities
kept; in particular for `"2d6"` the support is exactly `{2, ..., 12}` and
the value `7` has probability `6/36`. -/
theorem claim1_distribution_normalized (s : String) (terms : List ParsedTerm)
    (_htok : tokenizeFormula s = some terms) (_hcap : totalDice terms ≤ 8) :
    (calculateProbabilityDistribution terms = [] ∨
      (((calculateProbabilityDistribution terms).map (fun p => p.2)).sum = 1 ∧
        List.Sorted (fun a b : ℚ × ℚ => a.1 ≤ b.1)
          (calculateProbabilityDistribution terms) ∧
        ∀ p ∈ calculateProbabilityDistribution terms, 0 < p.2)) ∧
    tokenizeFormula "2d6" = some [.dice 2 6] ∧
    calculateProbabilityDistribution [.dice 2 6] =
      [(2, 1 / 36), (3, 1 / 18), (4, 1 / 12), (5, 1 / 9), (6, 5 / 36), (7, 1 / 6),
        (8, 5 / 36), (9, 1 / 9), (10, 1 / 12), (11, 1 / 18), (12, 1 / 36)] ∧
    ((7 : ℚ), (6 : ℚ) / 36) ∈ calculateProbabilityDistribution [.dice 2 6] :=
  ⟨calcProbDist_spec terms, by decide, by decide, by decide⟩

/-- C1 witness at the formula `"2d6"`. -/
theorem claim1_distribution_normalized_witness :
    (tokenizeFormula "2d6" = some [ParsedTerm.dice 2 6] ∧
      totalDice [ParsedTerm.dice 2 6] ≤ 8) ∧
    ((calculateProbabilityDistribution [ParsedTerm.dice 2 6] = [] ∨
      (((calculateProbabilityDistribution [ParsedTerm.dice 2 6]).map
          (fun p => p.2)).sum = 1 ∧
        List.Sorted (fun a b : ℚ × ℚ => a.1 ≤ b.1)
          (calculateProbabilityDistribution [ParsedTerm.dice 2 6]) ∧
        ∀ p ∈ calculateProbabilityDistribution [ParsedTerm.dice 2 6], 0 < p.2)) ∧
    tokenizeFormula "2d6" = some [.dice 2 6] ∧
    calculateProbabilityDistribution [.dice 2 6] =
      [(2, 1 / 36), (3, 1 / 18), (4, 1 / 12), (5, 1 / 9), (6, 5 / 36), (7, 1 / 6),
        (8, 5 / 36), (9, 1 / 9), (10, 1 / 12), (11, 1 / 18), (12, 1 / 36)] ∧
    ((7 : ℚ), (6 : ℚ) / 36) ∈ calculateProbabilityDistribution [.dice 2 6]) :=
  ⟨⟨by decide, by decide⟩,
    claim1_distribution_normalized "2d6" [ParsedTerm.dice 2 6] (by decide) (by decide)⟩

/-- C9 counterexample: the tokenization of `"(3)(2d6)"` leaves two values on
the evaluation stack, and the fallback result is the eleven-point `2d6`
distribution — not a single-point distribution as the claim states. -/
theorem claim9_counterexample :
    distStack [ParsedTerm.lparen, .num 3, .rparen, .lparen, .dice 2 6, .rparen] =
      some [[(2, 1), (3, 2), (4, 3), (5, 4), (6, 5), (7, 6), (8, 5), (9, 4), (10, 3),
        (11, 2), (12, 1)], [(3, 1)]] ∧
    (evaluateDist [ParsedTerm.lparen, .num 3, .rparen, .lparen, .dice 2 6, .rparen]).map
        (fun d => d.length) = some 11 ∧
    (11 : ℕ) ≠ 1 := by
  decide

/-- C9 (amended): when the evaluation stack holds leftover values at the end
of a nonempty term sequence, the distribution engine does not crash: it
returns the most recently computed sub-result (the top of the stack, which
need not be single-point).  For `"(3)(2d6)"` — malformed input that passes
tokenization — the stack ends with two values and the engine returns the
full eleven-point `2d6` distribution. -/
theorem claim9_stack_fallback :
    (∀ (terms : List ParsedTerm) (vs : List Distribution),
      terms ≠ [] → distStack terms = some vs →
      evaluateDist terms = some (vs.headD [((0 : ℚ), 1)])) ∧
    tokenizeFormula "(3)(2d6)" =
      some [.lparen, .num 3, .rparen, .lparen, .dice 2 6, .rparen] ∧
    distStack [ParsedTerm.lparen, .num 3, .rparen, .lparen, .dice 2 6, .rparen] =
      some [[(2, 1), (3, 2), (4, 3), (5, 4), (6, 5), (7, 6), (8, 5), (9, 4), (10, 3),
        (11, 2), (12, 1)], [(3, 1)]] ∧
    calculateProbabilityDistribution
        [ParsedTerm.lparen, .num 3, .rparen, .lparen, .dice 2 6, .rparen] =
      [(2, 1 / 36), (3, 1 / 18), (4, 1 / 12), (5, 1 / 9), (6, 5 / 36), (7, 1 / 6),
        (8, 5 / 36), (9, 1 / 9), (10, 1 / 12), (11, 1 / 18), (12, 1 / 36)] := by
  refine ⟨fun terms vs hne hds => ?_, by decide, by decide, by decide⟩
  have h1 : terms.isEmpty = false := by
    cases terms with
    | nil => exact absurd rfl hne
    | cons a l => rfl
  simp [evaluateDist, h1, hds]

/-- C9 witness at the tokenization of `"(3)(2d6)"`. -/
theorem claim9_stack_fallback_witness :
    ([ParsedTerm.lparen, ParsedTerm.num 3, ParsedTerm.rparen, ParsedTerm.lparen,
        ParsedTerm.dice 2 6, ParsedTerm.rparen] ≠ ([] : List ParsedTerm)) ∧
    distStack [ParsedTerm.lparen, .num 3, .rparen, .lparen, .dice 2 6, .rparen] =
      some [[(2, 1), (3, 2), (4, 3), (5, 4), (6, 5), (7, 6), (8, 5), (9, 4), (10, 3),
        (11, 2), (12, 1)], [(3, 1)]] ∧
    evaluateDist [ParsedTerm.lparen, .num 3, .rparen, .lparen, .dice 2 6, .rparen] =
      some [(2, 1), (3, 2), (4, 3), (5, 4), (6, 5), (7, 6), (8, 5), (9, 4), (10, 3),
        (11, 2), (12, 1)] :=
  ⟨by decide, by decide,
    claim9_stack_fallback.1
      [ParsedTerm.lparen, .num 3, .rparen, .lparen, .dice 2 6, .rparen]
      [[(2, 1), (3, 2), (4, 3), (5, 4), (6, 5), (7, 6), (8, 5), (9, 4), (10, 3),
        (11, 2), (12, 1)], [(3, 1)]]
      (by decide) (by decide)⟩

/-- C10: the modifier reported by `simulateRoll` is the sum of every number
term of the tokenized sequence, including the synthetic `-1` inserted by
sign-folding a `-`-prefixed dice term: for `"-1d6+3"` the modifier is `2`
(`-1 + 3`), not `3`, whatever the random stream produces. -/
theorem claim10_modifier_includes_synthetic :
    tokenizeFormula "-1d6+3" =
      some [.num (-1), .op .mul, .dice 1 6, .op .add, .num 3] ∧
    (∀ rand : ℕ → ℚ,
      (simulateRoll rand
        [.num (-1), .op .mul, .dice 1 6, .op .add, .num 3]).modifier = 2) ∧
    (2 : ℚ) ≠ 3 := by
  refine ⟨by decide, fun rand => ?_, by decide⟩
  rfl

end DiceForge

